import Mathlib

/-!
Verification development for the KB1 MIDI editor device-communication stack.

The TypeScript sources are shallowly embedded:
* byte frames are `List Nat` (each entry a byte value 0..255);
* JS strings are `List Nat` of Unicode code points (assumed to lie in the
  basic multilingual plane, where one code point is one UTF-16 code unit, so
  `String.prototype.slice(0, n)` corresponds to `List.take n`);
* `TextEncoder.encode` / `TextDecoder.decode` are modelled by a standard
  UTF-8 encoder/decoder over code points;
* fallible operations (JS `throw`) return `Except String`;
* stateful modules become explicit state-passing functions.
-/

namespace KB1

/-! ## Byte-level helpers (DataView reads, little-endian writes) -/

/-- Model of a byte read `view.getUint8(i)` on a frame; out-of-range reads
never occur in the theorems below (frames have the required length). -/
def getU8 (l : List Nat) (i : Nat) : Nat := l.getD i 0

/-- Model of `view.getUint16(i, true)` (little-endian). -/
def getU16LE (l : List Nat) (i : Nat) : Nat := getU8 l i + 256 * getU8 l (i + 1)

/-- Model of `view.getUint32(i, true)` (little-endian). -/
def getU32LE (l : List Nat) (i : Nat) : Nat :=
  getU8 l i + 256 * getU8 l (i + 1) + 65536 * getU8 l (i + 2) + 16777216 * getU8 l (i + 3)

/-- Little-endian byte serialization of a 16-bit value. -/
def u16Bytes (n : Nat) : List Nat := [n % 256, n / 256 % 256]

/-- Little-endian byte serialization of a 32-bit value. -/
def u32Bytes (n : Nat) : List Nat :=
  [n % 256, n / 256 % 256, n / 65536 % 256, n / 16777216 % 256]

/-! ## UTF-8 (model of TextEncoder / TextDecoder) -/

/-- UTF-8 encoding of a single Unicode code point, as byte values. -/
def utf8EncodeChar (n : Nat) : List Nat :=
  if n < 128 then [n]
  else if n < 2048 then [192 + n / 64, 128 + n % 64]
  else if n < 65536 then [224 + n / 4096, 128 + n / 64 % 64, 128 + n % 64]
  else [240 + n / 262144, 128 + n / 4096 % 64, 128 + n / 64 % 64, 128 + n % 64]

/-- Model of `new TextEncoder().encode(s)`: UTF-8 bytes of a code-point list. -/
def utf8EncodeStr (s : List Nat) : List Nat := s.flatMap utf8EncodeChar

/-- Decoding step of the UTF-8 decoder: given a lead byte and the remaining
bytes, produce the decoded code point and how many continuation bytes were
consumed (malformed input yields U+FFFD = 65533, like the JS decoder). -/
def utf8Step (b : Nat) (bs : List Nat) : Nat × Nat :=
  if b < 128 then (b, 0)
  else if b < 224 then
    match bs with
    | b1 :: _ => (b % 32 * 64 + b1 % 64, 1)
    | [] => (65533, 0)
  else if b < 240 then
    match bs with
    | b1 :: b2 :: _ => (b % 16 * 4096 + b1 % 64 * 64 + b2 % 64, 2)
    | _ => (65533, bs.length)
  else
    match bs with
    | b1 :: b2 :: b3 :: _ => (b % 8 * 262144 + b1 % 64 * 4096 + b2 % 64 * 64 + b3 % 64, 3)
    | _ => (65533, bs.length)

/-- Fueled loop of the UTF-8 decoder; the fuel only serves structural
termination and is irrelevant as long as it is at least the list length. -/
def utf8DecodeAux : Nat → List Nat → List Nat
  | _, [] => []
  | 0, _ :: _ => []
  | fuel + 1, b :: bs =>
    let s := utf8Step b bs
    s.1 :: utf8DecodeAux fuel (bs.drop s.2)

theorem utf8DecodeAux_eq (fuel1 : Nat) : ∀ (fuel2 : Nat) (l : List Nat),
    l.length ≤ fuel1 → l.length ≤ fuel2 → utf8DecodeAux fuel1 l = utf8DecodeAux fuel2 l := by
  induction fuel1 with
  | zero =>
      intro fuel2 l h1 _
      cases l with
      | nil => cases fuel2 <;> rfl
      | cons b bs => simp at h1
  | succ f ih =>
      intro fuel2 l h1 h2
      cases l with
      | nil => cases fuel2 <;> rfl
      | cons b bs =>
          cases fuel2 with
          | zero => simp at h2
          | succ f2 =>
              rw [utf8DecodeAux, utf8DecodeAux]
              have hd : (bs.drop (utf8Step b bs).2).length ≤ bs.length := by
                simp [List.length_drop]
              simp only [List.length_cons] at h1 h2
              exact congrArg _ (ih f2 _ (by omega) (by omega))

/-- Model of `new TextDecoder().decode(bytes)`: decodes UTF-8 byte values back
to code points; the theorems below only apply it to well-formed input. -/
def utf8Decode (l : List Nat) : List Nat := utf8DecodeAux l.length l

theorem utf8Decode_cons (b : Nat) (bs : List Nat) :
    utf8Decode (b :: bs) = (utf8Step b bs).1 :: utf8Decode (bs.drop (utf8Step b bs).2) := by
  show utf8DecodeAux (b :: bs).length (b :: bs) = _
  rw [List.length_cons, utf8DecodeAux]
  unfold utf8Decode
  exact congrArg _ (utf8DecodeAux_eq _ _ _ (by simp [List.length_drop]) (le_refl _))

theorem utf8Decode_encodeChar (n : Nat) (h : n < 1114112) (rest : List Nat) :
    utf8Decode (utf8EncodeChar n ++ rest) = n :: utf8Decode rest := by
  unfold utf8EncodeChar
  by_cases h1 : n < 128
  · rw [if_pos h1, List.cons_append, List.nil_append, utf8Decode_cons]
    simp only [utf8Step, if_pos h1, List.drop_zero]
  · by_cases h2 : n < 2048
    · rw [if_neg h1, if_pos h2, List.cons_append, List.cons_append, List.nil_append,
        utf8Decode_cons]
      have c1 : ¬(192 + n / 64 < 128) := by omega
      have c2 : 192 + n / 64 < 224 := by omega
      simp only [utf8Step, if_neg c1, if_pos c2, List.drop_succ_cons, List.drop_zero]
      have : (192 + n / 64) % 32 * 64 + (128 + n % 64) % 64 = n := by omega
      rw [this]
    · by_cases h3 : n < 65536
      · rw [if_neg h1, if_neg h2, if_pos h3, List.cons_append, List.cons_append,
          List.cons_append, List.nil_append, utf8Decode_cons]
        have c1 : ¬(224 + n / 4096 < 128) := by omega
        have c2 : ¬(224 + n / 4096 < 224) := by omega
        have c3 : 224 + n / 4096 < 240 := by omega
        simp only [utf8Step, if_neg c1, if_neg c2, if_pos c3, List.drop_succ_cons,
          List.drop_zero]
        have : (224 + n / 4096) % 16 * 4096 + (128 + n / 64 % 64) % 64 * 64
            + (128 + n % 64) % 64 = n := by omega
        rw [this]
      · rw [if_neg h1, if_neg h2, if_neg h3, List.cons_append, List.cons_append,
          List.cons_append, List.cons_append, List.nil_append, utf8Decode_cons]
        have c1 : ¬(240 + n / 262144 < 128) := by omega
        have c2 : ¬(240 + n / 262144 < 224) := by omega
        have c3 : ¬(240 + n / 262144 < 240) := by omega
        simp only [utf8Step, if_neg c1, if_neg c2, if_neg c3, List.drop_succ_cons,
          List.drop_zero]
        have : (240 + n / 262144) % 8 * 262144 + (128 + n / 4096 % 64) % 64 * 4096
            + (128 + n / 64 % 64) % 64 * 64 + (128 + n % 64) % 64 = n := by omega
        rw [this]

theorem utf8Decode_encodeStr (s : List Nat) (h : ∀ c ∈ s, c < 1114112) :
    utf8Decode (utf8EncodeStr s) = s := by
  induction s with
  | nil => rfl
  | cons c t ih =>
      have hc : c < 1114112 := h c (List.mem_cons_self c t)
      have ht : ∀ x ∈ t, x < 1114112 := fun x hx => h x (List.mem_cons_of_mem c hx)
      have : utf8EncodeStr (c :: t) = utf8EncodeChar c ++ utf8EncodeStr t := by
        simp [utf8EncodeStr]
      rw [this, utf8Decode_encodeChar c hc, ih ht]

theorem zero_not_mem_utf8EncodeChar (c : Nat) (hc : c ≠ 0) : 0 ∉ utf8EncodeChar c := by
  unfold utf8EncodeChar
  by_cases h1 : c < 128
  · simp only [if_pos h1, List.mem_singleton]
    omega
  · by_cases h2 : c < 2048
    · simp only [if_neg h1, if_pos h2, List.mem_cons, List.not_mem_nil, or_false]
      omega
    · by_cases h3 : c < 65536
      · simp only [if_neg h1, if_neg h2, if_pos h3, List.mem_cons, List.not_mem_nil, or_false]
        omega
      · simp only [if_neg h1, if_neg h2, if_neg h3, List.mem_cons, List.not_mem_nil, or_false]
        omega

theorem zero_not_mem_utf8EncodeStr (s : List Nat) (h : ∀ c ∈ s, c ≠ 0) :
    0 ∉ utf8EncodeStr s := by
  intro hmem
  simp only [utf8EncodeStr, List.mem_flatMap] at hmem
  obtain ⟨c, hc, hbyte⟩ := hmem
  exact zero_not_mem_utf8EncodeChar c (h c hc) hbyte

/-! ## Protocol codec: device preset commands (`kb1Protocol` layer)

Embedded from `encodePresetSave` / `encodePresetLoad` / `encodePresetDelete` /
`decodePresetList` in the repository (referenced from `src/ble/bleClient.ts`).
-/

/-- DEVICE_PRESET.MAX_SLOTS. -/
def MAX_SLOTS : Nat := 8

/-- DEVICE_PRESET.NAME_MAX_LENGTH. -/
def NAME_MAX_LENGTH : Nat := 32

/-- DEVICE_PRESET.EMPTY_SLOT_NAME, the code points of the string "[Empty]". -/
def EMPTY_SLOT_NAME : List Nat := [91, 69, 109, 112, 116, 121, 93]

/-- Record stride of the preset list response. -/
def METADATA_SIZE : Nat := 40

/-- Embeds `encodePresetSave(slot, name)`.  The source builds a zero-filled
`Uint8Array(33)`, writes the slot byte, then `buffer.set(nameBytes, 1)` with
`nameBytes = TextEncoder.encode(name.slice(0, 32))`.  `slice(0, 32)` keeps the
first 32 UTF-16 code units (here: `List.take 32`); if the resulting UTF-8
encoding exceeds 32 bytes, `buffer.set` throws a `RangeError`. -/
def encodePresetSave (slot : Int) (name : List Nat) : Except String (List Nat) :=
  if slot < 0 ∨ 8 ≤ slot then
    Except.error ("Invalid slot: " ++ toString slot)
  else
    let nameBytes := utf8EncodeStr (name.take NAME_MAX_LENGTH)
    if 32 < nameBytes.length then
      Except.error "RangeError: offset is out of bounds"
    else
      Except.ok (slot.toNat :: (nameBytes ++ List.replicate (32 - nameBytes.length) 0))

/-- Embeds `encodePresetLoad(slot)`. -/
def encodePresetLoad (slot : Int) : Except String (List Nat) :=
  if slot < 0 ∨ 8 ≤ slot then
    Except.error ("Invalid slot: " ++ toString slot)
  else
    Except.ok [slot.toNat]

/-- Embeds `encodePresetDelete(slot)`. -/
def encodePresetDelete (slot : Int) : Except String (List Nat) :=
  if slot < 0 ∨ 8 ≤ slot then
    Except.error ("Invalid slot: " ++ toString slot)
  else
    Except.ok [slot.toNat]

/-- Decoded per-slot metadata, as produced by `decodePresetList`. -/
structure DevicePresetMetadata where
  slot : Nat
  name : List Nat
  timestamp : Nat
  isValid : Bool
deriving DecidableEq, Repr

/-- Embeds the name extraction in `decodePresetList`: `nameBytes.indexOf(0)`,
then `slice(0, nullIndex)` when the index is nonnegative, the whole field
otherwise. -/
def extractName (nameBytes : List Nat) : List Nat :=
  let nullIndex := nameBytes.indexOf 0
  if nullIndex < nameBytes.length then nameBytes.take nullIndex else nameBytes

/-- Embeds one iteration of the `decodePresetList` loop at index `slot`:
32 name bytes (null-terminated, UTF-8 decoded, `[Empty]` when empty),
little-endian uint32 timestamp at offset 32, isValid byte compared to 1
at offset 36. -/
def decodeRecord (data : List Nat) (slot : Nat) : DevicePresetMetadata :=
  let offset := slot * METADATA_SIZE
  let nameBytes := (data.drop offset).take 32
  let name := utf8Decode (extractName nameBytes)
  { slot := slot
    name := if name.isEmpty then EMPTY_SLOT_NAME else name
    timestamp := getU32LE data (offset + 32)
    isValid := getU8 data (offset + 36) == 1 }

/-- Embeds `decodePresetList(data)`: decodes the 8 fixed-stride records. -/
def decodePresetList (data : List Nat) : List DevicePresetMetadata :=
  (List.range MAX_SLOTS).map (fun slot => decodeRecord data slot)

/-- Code points of the §8 scenario name
"A very long preset name exceeding thirty two characters" (55 ASCII chars). -/
def longPresetName : List Nat :=
  [65, 32, 118, 101, 114, 121, 32, 108, 111, 110, 103, 32, 112, 114, 101, 115,
   101, 116, 32, 110, 97, 109, 101, 32, 101, 120, 99, 101, 101, 100, 105, 110,
   103, 32, 116, 104, 105, 114, 116, 121, 32, 116, 119, 111, 32, 99, 104, 97,
   114, 97, 99, 116, 101, 114, 115]

/-- C1 (amended): for slot 0..7, `encodePresetSave` truncates the name to its
first 32 UTF-16 code units and UTF-8 encodes it; whenever that encoding fits
in 32 bytes the result is the 33-byte frame `slot :: bytes ++ zero padding`.
(The original claim fails when the encoding of the truncated name exceeds
32 bytes: the internal `buffer.set` then throws a `RangeError`, see the
counterexample.) -/
theorem encodePresetSave_frame (slot : Int) (name : List Nat)
    (h0 : 0 ≤ slot) (h8 : slot < 8)
    (hfit : (utf8EncodeStr (name.take 32)).length ≤ 32) :
    encodePresetSave slot name =
      Except.ok (slot.toNat ::
        (utf8EncodeStr (name.take 32) ++
          List.replicate (32 - (utf8EncodeStr (name.take 32)).length) 0)) ∧
    (slot.toNat ::
        (utf8EncodeStr (name.take 32) ++
          List.replicate (32 - (utf8EncodeStr (name.take 32)).length) 0)).length = 33 := by
  have hcond : ¬(slot < 0 ∨ 8 ≤ slot) := by omega
  have hlen : ¬(32 < (utf8EncodeStr (name.take 32)).length) := by omega
  refine ⟨?_, ?_⟩
  · simp [encodePresetSave, NAME_MAX_LENGTH, hcond, hlen]
  · simp [List.length_append, List.length_replicate]
    omega

/-- C1 witness: the §8 scenario `encodePresetSave(3, "A very long preset name
exceeding thirty two characters")` succeeds and yields a 33-byte frame. -/
theorem encodePresetSave_frame_scenario :
    encodePresetSave 3 longPresetName =
      Except.ok ((3 : Int).toNat ::
        (utf8EncodeStr (longPresetName.take 32) ++
          List.replicate (32 - (utf8EncodeStr (longPresetName.take 32)).length) 0)) ∧
    ((3 : Int).toNat ::
        (utf8EncodeStr (longPresetName.take 32) ++
          List.replicate (32 - (utf8EncodeStr (longPresetName.take 32)).length) 0)).length
      = 33 :=
  encodePresetSave_frame 3 longPresetName (by decide) (by decide) (by decide)

/-- C1 counterexample: seventeen copies of U+00E9 ("é") are seventeen UTF-16
code units, so `slice(0, 32)` keeps them all, yet their UTF-8 encoding is 34
bytes; `encodePresetSave` then throws instead of returning a 33-byte frame
with the name truncated to 32 bytes. -/
theorem encodePresetSave_nonAscii_throws :
    encodePresetSave 0 (List.replicate 17 233) =
      Except.error "RangeError: offset is out of bounds" := by
  rfl

/-- C6: slot validation of the three preset command encoders — any slot
outside 0..7 makes all three fail with the `Invalid slot` error and produce
no frame, while for slots 0..7 load and delete return exactly the one-byte
frame `[slot]`. -/
theorem presetCommandSlotValidation (slot : Int) (name : List Nat) :
    ((slot < 0 ∨ 8 ≤ slot) →
      encodePresetSave slot name = Except.error ("Invalid slot: " ++ toString slot) ∧
      encodePresetLoad slot = Except.error ("Invalid slot: " ++ toString slot) ∧
      encodePresetDelete slot = Except.error ("Invalid slot: " ++ toString slot)) ∧
    (0 ≤ slot → slot < 8 →
      encodePresetLoad slot = Except.ok [slot.toNat] ∧
      encodePresetDelete slot = Except.ok [slot.toNat]) := by
  refine ⟨fun hbad => ?_, fun h0 h8 => ?_⟩
  · refine ⟨?_, ?_, ?_⟩ <;> simp [encodePresetSave, encodePresetLoad, encodePresetDelete, hbad]
  · have hcond : ¬(slot < 0 ∨ 8 ≤ slot) := by omega
    exact ⟨by simp [encodePresetLoad, hcond], by simp [encodePresetDelete, hcond]⟩

/-! ## Preset list frame layout and round-trip (claim C2)

The frame layout below follows the documented record format: 32 bytes
zero-terminated/zero-padded UTF-8 name, 4 bytes little-endian timestamp,
1 byte isValid (0/1), 3 reserved zero bytes — 40 bytes per record.
-/

/-- Source-side preset metadata of one record before layout. -/
structure PresetRecordIn where
  name : List Nat
  timestamp : Nat
  isValid : Bool
deriving DecidableEq, Repr

/-- Lays out one 40-byte record of the preset list response frame. -/
def encodePresetRecord (r : PresetRecordIn) : List Nat :=
  utf8EncodeStr r.name ++ List.replicate (32 - (utf8EncodeStr r.name).length) 0 ++
    u32Bytes r.timestamp ++ [if r.isValid then 1 else 0] ++ [0, 0, 0]

/-- Lays out the full 8-record preset list response frame. -/
def encodePresetListFrame (rs : List PresetRecordIn) : List Nat :=
  (rs.map encodePresetRecord).flatten

/-- Well-formedness of a record: code points are nonzero scalar values, the
UTF-8 name fits the 32-byte field, the timestamp fits 32 bits. -/
def validPresetRecord (r : PresetRecordIn) : Prop :=
  (∀ c ∈ r.name, 0 < c ∧ c < 1114112) ∧
    (utf8EncodeStr r.name).length ≤ 32 ∧ r.timestamp < 4294967296

instance (r : PresetRecordIn) : Decidable (validPresetRecord r) := by
  unfold validPresetRecord
  infer_instance

theorem getU8_append_left (b X : List Nat) (i : Nat) (h : i < b.length) :
    getU8 (b ++ X) i = getU8 b i :=
  List.getD_append b X 0 i h

theorem getU8_append_right (b X : List Nat) (i : Nat) (h : b.length ≤ i) :
    getU8 (b ++ X) i = getU8 X (i - b.length) :=
  List.getD_append_right b X 0 i h

theorem encodePresetRecord_length (r : PresetRecordIn)
    (h : (utf8EncodeStr r.name).length ≤ 32) : (encodePresetRecord r).length = 40 := by
  simp [encodePresetRecord, u32Bytes, List.length_append, List.length_replicate]
  omega

theorem extractName_padded (nb : List Nat) (h0 : 0 ∉ nb) (hlen : nb.length ≤ 32) :
    extractName (nb ++ List.replicate (32 - nb.length) 0) = nb := by
  by_cases heq : nb.length = 32
  · have : 32 - nb.length = 0 := by omega
    rw [this, List.replicate_zero, List.append_nil]
    unfold extractName
    rw [List.indexOf_eq_length.mpr h0]
    simp
  · obtain ⟨m, hm⟩ : ∃ m, 32 - nb.length = m + 1 := ⟨31 - nb.length, by omega⟩
    unfold extractName
    rw [List.indexOf_append_of_not_mem h0, hm, List.replicate_succ,
      List.indexOf_cons_self, Nat.add_zero]
    have hlt : nb.length < (nb ++ List.replicate (32 - nb.length) 0).length := by
      simp [List.length_append, List.length_replicate]
      omega
    rw [hm, List.replicate_succ] at hlt
    rw [if_pos hlt, List.take_left]

/-- Decoding the first record of a frame only looks at its first 40 bytes. -/
theorem decodeRecord_first (b X : List Nat) (hb : b.length = 40) :
    decodeRecord (b ++ X) 0 = decodeRecord b 0 := by
  unfold decodeRecord METADATA_SIZE
  have hname : (b ++ X).take 32 = b.take 32 := List.take_append_of_le_length (by omega)
  have ht : getU32LE (b ++ X) 32 = getU32LE b 32 := by
    unfold getU32LE
    rw [getU8_append_left b X 32 (by omega), getU8_append_left b X 33 (by omega),
      getU8_append_left b X 34 (by omega), getU8_append_left b X 35 (by omega)]
  have hv : getU8 (b ++ X) 36 = getU8 b 36 := getU8_append_left b X 36 (by omega)
  simp only [Nat.zero_mul, List.drop_zero, Nat.zero_add, hname, ht, hv]

/-- Decoding record `i + 1` of a frame skips its first 40-byte record. -/
theorem decodeRecord_shift (b X : List Nat) (hb : b.length = 40) (i : Nat) :
    decodeRecord (b ++ X) (i + 1) = { decodeRecord X i with slot := i + 1 } := by
  unfold decodeRecord METADATA_SIZE
  have hoff : (i + 1) * 40 = b.length + i * 40 := by omega
  have hdrop : (b ++ X).drop ((i + 1) * 40) = X.drop (i * 40) := by
    rw [hoff, List.drop_append]
  have ht : getU32LE (b ++ X) ((i + 1) * 40 + 32) = getU32LE X (i * 40 + 32) := by
    unfold getU32LE
    rw [getU8_append_right b X _ (by omega), getU8_append_right b X _ (by omega),
      getU8_append_right b X _ (by omega), getU8_append_right b X _ (by omega)]
    have e0 : (i + 1) * 40 + 32 - b.length = i * 40 + 32 := by omega
    have e1 : (i + 1) * 40 + 32 + 1 - b.length = i * 40 + 32 + 1 := by omega
    have e2 : (i + 1) * 40 + 32 + 2 - b.length = i * 40 + 32 + 2 := by omega
    have e3 : (i + 1) * 40 + 32 + 3 - b.length = i * 40 + 32 + 3 := by omega
    rw [e0, e1, e2, e3]
  have hv : getU8 (b ++ X) ((i + 1) * 40 + 36) = getU8 X (i * 40 + 36) := by
    rw [getU8_append_right b X _ (by omega)]
    have e : (i + 1) * 40 + 36 - b.length = i * 40 + 36 := by omega
    rw [e]
  simp only [hdrop, ht, hv]

/-- Decoding record `i` of a concatenation of 40-byte blocks decodes block `i`. -/
theorem decodeRecord_flatten (bs : List (List Nat)) (h : ∀ b ∈ bs, b.length = 40) :
    ∀ i, i < bs.length →
      decodeRecord bs.flatten i = { decodeRecord (bs.getD i []) 0 with slot := i } := by
  induction bs with
  | nil => intro i hi; simp at hi
  | cons b t ih =>
      intro i hi
      have hb : b.length = 40 := h b (List.mem_cons_self b t)
      have ht : ∀ x ∈ t, x.length = 40 := fun x hx => h x (List.mem_cons_of_mem b hx)
      cases i with
      | zero =>
          rw [List.flatten_cons, decodeRecord_first b t.flatten hb]
          rfl
      | succ j =>
          rw [List.flatten_cons, decodeRecord_shift b t.flatten hb j,
            ih ht j (by simpa using hi)]
          simp [List.getD_cons_succ]

/-- Decoding one well-formed encoded record reconstructs its fields (with the
empty-name substitution performed by the decoder itself). -/
theorem decodeRecord_encodeRecord (r : PresetRecordIn) (hv : validPresetRecord r) :
    decodeRecord (encodePresetRecord r) 0 =
      { slot := 0
        name := if r.name.isEmpty then EMPTY_SLOT_NAME else r.name
        timestamp := r.timestamp
        isValid := r.isValid } := by
  obtain ⟨htchars, hfit, hts⟩ := hv
  have h0 : 0 ∉ utf8EncodeStr r.name :=
    zero_not_mem_utf8EncodeStr r.name (fun c hc => by have := htchars c hc; omega)
  have hnf : (utf8EncodeStr r.name ++ List.replicate (32 - (utf8EncodeStr r.name).length) 0).length = 32 := by
    simp [List.length_append, List.length_replicate]
    omega
  unfold decodeRecord METADATA_SIZE encodePresetRecord
  set nb := utf8EncodeStr r.name with hnbdef
  set pad := List.replicate (32 - nb.length) 0 with hpaddef
  set u4 := u32Bytes r.timestamp with hu4def
  set vb := [if r.isValid then (1 : Nat) else 0] with hvbdef
  have hpadlen : pad.length = 32 - nb.length := by simp [hpaddef]
  have hu4len : u4.length = 4 := by simp [hu4def, u32Bytes]
  have hvblen : vb.length = 1 := by simp [hvbdef]
  have htake : (nb ++ pad ++ u4 ++ vb ++ [0, 0, 0]).take 32 = nb ++ pad := by
    rw [List.take_append_of_le_length
        (by simp only [List.length_append, hpadlen, hu4len, hvblen]; omega),
      List.take_append_of_le_length
        (by simp only [List.length_append, hpadlen, hu4len]; omega),
      List.take_append_of_le_length
        (by simp only [List.length_append, hpadlen]; omega),
      List.take_of_length_le (by simp only [List.length_append, hpadlen]; omega)]
  have hname : extractName (nb ++ pad) = nb := extractName_padded nb h0 hfit
  have hdec : utf8Decode nb = r.name :=
    utf8Decode_encodeStr r.name (fun c hc => (htchars c hc).2)
  have hu8 : ∀ j, j < 4 → getU8 (nb ++ pad ++ u4 ++ vb ++ [0, 0, 0]) (32 + j) = getU8 u4 j := by
    intro j hj
    rw [getU8_append_left _ _ _
        (by simp only [List.length_append, hpadlen, hu4len, hvblen]; omega),
      getU8_append_left _ _ _
        (by simp only [List.length_append, hpadlen, hu4len]; omega),
      getU8_append_right _ _ _
        (by simp only [List.length_append, hpadlen]; omega)]
    congr 1
    simp only [List.length_append, hpadlen]
    omega
  have hts4 : getU32LE (nb ++ pad ++ u4 ++ vb ++ [0, 0, 0]) 32 = r.timestamp := by
    have ha : getU8 (nb ++ pad ++ u4 ++ vb ++ [0, 0, 0]) 32 = getU8 u4 0 := by
      simpa using hu8 0 (by omega)
    have hbb : getU8 (nb ++ pad ++ u4 ++ vb ++ [0, 0, 0]) (32 + 1) = getU8 u4 1 :=
      hu8 1 (by omega)
    have hcc : getU8 (nb ++ pad ++ u4 ++ vb ++ [0, 0, 0]) (32 + 2) = getU8 u4 2 :=
      hu8 2 (by omega)
    have hdd : getU8 (nb ++ pad ++ u4 ++ vb ++ [0, 0, 0]) (32 + 3) = getU8 u4 3 :=
      hu8 3 (by omega)
    unfold getU32LE
    rw [ha, hbb, hcc, hdd]
    simp only [hu4def, u32Bytes, getU8, List.getD_cons_zero, List.getD_cons_succ]
    omega
  have hvb36 : getU8 (nb ++ pad ++ u4 ++ vb ++ [0, 0, 0]) 36
      = (if r.isValid then 1 else 0) := by
    rw [getU8_append_left _ _ _
        (by simp only [List.length_append, hpadlen, hu4len, hvblen]; omega),
      getU8_append_right _ _ _
        (by simp only [List.length_append, hpadlen, hu4len]; omega)]
    have h36 : (36 : Nat) - (nb ++ pad ++ u4).length = 0 := by
      simp only [List.length_append, hpadlen, hu4len]
      omega
    rw [h36, hvbdef]
    simp [getU8]
  simp only [Nat.zero_mul, List.drop_zero, Nat.zero_add, htake, hname, hdec, hts4, hvb36]
  have hval : ((if r.isValid then 1 else 0 : Nat) == 1) = r.isValid := by
    cases r.isValid <;> simp
  rw [hval]

/-- C2 (amended): decoding the laid-out 8-record frame reconstructs slot,
name, timestamp and isValid of every record, except that an empty decoded
name is replaced by the "[Empty]" placeholder — by `decodePresetList` itself
(the Codec), not by the Synchronizer as the claim states. -/
theorem decodePresetList_roundtrip (rs : List PresetRecordIn)
    (hlen : rs.length = 8) (hv : ∀ r ∈ rs, validPresetRecord r) :
    decodePresetList (encodePresetListFrame rs) =
      (List.range 8).map (fun i =>
        { slot := i
          name := if (rs.getD i ⟨[], 0, false⟩).name.isEmpty then EMPTY_SLOT_NAME
                  else (rs.getD i ⟨[], 0, false⟩).name
          timestamp := (rs.getD i ⟨[], 0, false⟩).timestamp
          isValid := (rs.getD i ⟨[], 0, false⟩).isValid }) := by
  unfold decodePresetList encodePresetListFrame MAX_SLOTS
  apply List.map_congr_left
  intro i hi
  have hi8 : i < 8 := List.mem_range.mp hi
  have hirs : i < rs.length := by omega
  have hlens : ∀ b ∈ rs.map encodePresetRecord, b.length = 40 := by
    intro b hb
    obtain ⟨r, hr, rfl⟩ := List.mem_map.mp hb
    exact encodePresetRecord_length r (hv r hr).2.1
  rw [decodeRecord_flatten (rs.map encodePresetRecord) hlens i (by simpa using hirs)]
  have hget : (rs.map encodePresetRecord).getD i [] =
      encodePresetRecord (rs.getD i ⟨[], 0, false⟩) := by
    rw [List.getD_eq_getElem _ _ (by simpa using hirs), List.getElem_map,
      List.getD_eq_getElem _ _ hirs]
  have hmem : rs.getD i ⟨[], 0, false⟩ ∈ rs := by
    rw [List.getD_eq_getElem _ _ hirs]
    exact List.getElem_mem hirs
  rw [hget, decodeRecord_encodeRecord _ (hv _ hmem)]

/-- C2 witness: a concrete 8-record frame (one named slot, seven empty ones)
decodes back to its records, the empty names shown as "[Empty]". -/
theorem decodePresetList_roundtrip_inst :
    decodePresetList (encodePresetListFrame
      (⟨[75, 66, 49], 1700000000, true⟩ :: List.replicate 7 ⟨[], 0, false⟩)) =
      (List.range 8).map (fun i =>
        { slot := i
          name := if ((⟨[75, 66, 49], 1700000000, true⟩ :: List.replicate 7
                      (⟨[], 0, false⟩ : PresetRecordIn)).getD i ⟨[], 0, false⟩).name.isEmpty
                  then EMPTY_SLOT_NAME
                  else ((⟨[75, 66, 49], 1700000000, true⟩ :: List.replicate 7
                      (⟨[], 0, false⟩ : PresetRecordIn)).getD i ⟨[], 0, false⟩).name
          timestamp := ((⟨[75, 66, 49], 1700000000, true⟩ :: List.replicate 7
                      (⟨[], 0, false⟩ : PresetRecordIn)).getD i ⟨[], 0, false⟩).timestamp
          isValid := ((⟨[75, 66, 49], 1700000000, true⟩ :: List.replicate 7
                      (⟨[], 0, false⟩ : PresetRecordIn)).getD i ⟨[], 0, false⟩).isValid }) :=
  decodePresetList_roundtrip _ (by decide) (by decide)

/-- C2 counterexample: on the all-zero 320-byte frame every record decodes
with name "[Empty]" — the Codec (`decodePresetList`) itself substitutes the
placeholder for an empty name, contradicting the claim that the Codec leaves
empty names untouched. -/
theorem decodePresetList_empty_substitution :
    (decodePresetList (List.replicate 320 0)).map (fun m => m.name) =
      List.replicate 8 EMPTY_SLOT_NAME ∧ EMPTY_SLOT_NAME ≠ ([] : List Nat) := by
  constructor
  · rfl
  · decide

/-- C6 witness: slot 8 is rejected by all three encoders; slot 3 yields the
one-byte frames. -/
theorem presetCommandSlotValidation_inst :
    (encodePresetSave 8 [] = Except.error ("Invalid slot: " ++ toString (8 : Int)) ∧
      encodePresetLoad 8 = Except.error ("Invalid slot: " ++ toString (8 : Int)) ∧
      encodePresetDelete 8 = Except.error ("Invalid slot: " ++ toString (8 : Int))) ∧
    (encodePresetLoad 3 = Except.ok [(3 : Int).toNat] ∧
      encodePresetDelete 3 = Except.ok [(3 : Int).toNat]) :=
  ⟨(presetCommandSlotValidation 8 []).1 (by decide),
   (presetCommandSlotValidation 3 []).2 (by decide) (by decide)⟩

/-! ## Rate-limited control channel (`midiBle`, claims C4 and C10) -/

/-- Mutable module state of `midiBle`: the (optional) connected characteristic
handle, the timestamp of the last send attempt that passed the rate gate, and
the minimum send interval (initialised to 8 ms). -/
structure MidiBleState where
  characteristic : Option Nat
  lastSendMs : Nat
  minIntervalMs : Nat
deriving DecidableEq, Repr

/-- Observable outcome of one `sendControlChange` call. -/
inductive SendResult where
  | dropped
  | notConnected
  | wrote (frame : List Nat)
deriving DecidableEq, Repr

/-- ASCII byte values of the decimal digits of `n`. -/
def decimalBytes (n : Nat) : List Nat := (Nat.repr n).data.map Char.toNat

/-- Model of the encoded template literal frame "cc,value" (44 is the comma). -/
def ccFrame (cc value : Nat) : List Nat := decimalBytes cc ++ [44] ++ decimalBytes value

/-- Embeds `midiBle.sendControlChange(cc, value)` executed at clock time `now`
(milliseconds): if less than `minIntervalMs` elapsed since `lastSendMs` the
call returns with no effect; otherwise `lastSendMs` is advanced to `now`
before the connectivity check, and the frame is written only if a
characteristic is connected (else the call throws "Not connected").
Truncated `Nat` subtraction agrees with the JS float subtraction here: a
non-monotone clock would make both comparisons accept the drop branch. -/
def sendControlChange (st : MidiBleState) (now : Nat) (cc value : Nat) :
    MidiBleState × SendResult :=
  if now - st.lastSendMs < st.minIntervalMs then (st, .dropped)
  else
    let st1 := { st with lastSendMs := now }
    match st.characteristic with
    | none => (st1, .notConnected)
    | some _ => (st1, .wrote (ccFrame cc value))

/-- Runs a list of `(time, cc, value)` calls through `sendControlChange`,
threading the module state. -/
def runSends (st : MidiBleState) : List (Nat × Nat × Nat) → MidiBleState × List SendResult
  | [] => (st, [])
  | (t, cc, v) :: rest =>
    let r := sendControlChange st t cc v
    let rr := runSends r.1 rest
    (rr.1, r.2 :: rr.2)

/-- Number of transport writes among the recorded outcomes. -/
def countWrites (rs : List SendResult) : Nat :=
  (rs.filter (fun r => match r with | .wrote _ => true | _ => false)).length

/-- C4: with a connected characteristic and the default 8 ms window, a call
less than 8 ms after the last accepted send is silently dropped (no state
change, no write); otherwise the ASCII frame "cc,value" is written.  Two
sends 5 ms apart produce exactly one write; 10 ms apart, two writes. -/
theorem sendControlChange_rateLimited (st : MidiBleState) (now t cc value : Nat)
    (hch : st.characteristic.isSome = true) (hmin : st.minIntervalMs = 8) :
    (now - st.lastSendMs < 8 → sendControlChange st now cc value = (st, .dropped)) ∧
    (8 ≤ now - st.lastSendMs →
      sendControlChange st now cc value =
        ({ st with lastSendMs := now }, .wrote (ccFrame cc value))) ∧
    (st.lastSendMs + 8 ≤ t →
      countWrites (runSends st [(t, 7, 64), (t + 5, 7, 64)]).2 = 1 ∧
      countWrites (runSends st [(t, 7, 64), (t + 10, 7, 64)]).2 = 2) := by
  obtain ⟨ch, hch⟩ := Option.isSome_iff_exists.mp hch
  refine ⟨fun hlt => ?_, fun hge => ?_, fun ht => ?_⟩
  · simp [sendControlChange, hmin, hlt]
  · simp [sendControlChange, hmin, hch, Nat.not_lt.mpr hge]
  · have h1 : ¬(t - st.lastSendMs < 8) := by omega
    have h5 : t + 5 - t = 5 := by omega
    have h10 : t + 10 - t = 10 := by omega
    constructor
    · simp [runSends, sendControlChange, hmin, hch, h1, h5, countWrites]
    · simp [runSends, sendControlChange, hmin, hch, h1, h10, countWrites]

/-- C4 witness: from a fresh connected state, sends at 100 ms and 105 ms give
one write; at 100 ms and 110 ms, two writes. -/
theorem sendControlChange_rateLimited_inst :
    countWrites (runSends ⟨some 1, 0, 8⟩ [(100, 7, 64), (105, 7, 64)]).2 = 1 ∧
    countWrites (runSends ⟨some 1, 0, 8⟩ [(100, 7, 64), (110, 7, 64)]).2 = 2 :=
  (sendControlChange_rateLimited ⟨some 1, 0, 8⟩ 100 100 7 64 rfl rfl).2.2 (by decide)

/-- C10: a disconnected call that passes the 8 ms gate advances `lastSendMs`
before throwing "Not connected"; consequently any call in the following 8 ms
is silently dropped, even after a characteristic is connected. -/
theorem sendControlChange_notConnected_advancesWindow (st : MidiBleState)
    (now k cc value cc2 v2 ch : Nat)
    (hch : st.characteristic = none) (hmin : st.minIntervalMs = 8)
    (helapsed : st.lastSendMs + 8 ≤ now) (hk : k < 8) :
    sendControlChange st now cc value = ({ st with lastSendMs := now }, .notConnected) ∧
    sendControlChange { st with lastSendMs := now, characteristic := some ch }
        (now + k) cc2 v2
      = ({ st with lastSendMs := now, characteristic := some ch }, .dropped) := by
  constructor
  · have h1 : ¬(now - st.lastSendMs < 8) := by omega
    simp [sendControlChange, hmin, hch, h1]
  · have h2 : now + k - now = k := by omega
    simp [sendControlChange, hmin, h2, hk]

/-- C10 witness: at time 50 a disconnected send throws but advances the
window; a connected send at time 55 is dropped. -/
theorem sendControlChange_notConnected_advancesWindow_inst :
    sendControlChange ⟨none, 0, 8⟩ 50 7 64 = (⟨none, 50, 8⟩, .notConnected) ∧
    sendControlChange ⟨some 1, 50, 8⟩ 55 7 64 = (⟨some 1, 50, 8⟩, .dropped) :=
  sendControlChange_notConnected_advancesWindow ⟨none, 0, 8⟩ 50 5 7 64 7 64 1
    rfl rfl (by decide) (by decide)

/-! ## Keep-alive scheduler (`KeepAliveService`, claims C5 and C8) -/

/-- State of the keep-alive service: running flag, whether the periodic timer
is armed, whether a ping callback has been set, the activity tracker's last
activity timestamp, and the configured activity timeout (default 120 000 ms). -/
structure KeepAliveService where
  isRunning : Bool
  pingTimerArmed : Bool
  hasPingCallback : Bool
  lastActivity : Nat
  activityTimeoutMs : Nat
deriving DecidableEq, Repr

/-- Embeds `ActivityTracker.getTimeSinceActivity` at clock time `now`. -/
def getTimeSinceActivity (s : KeepAliveService) (now : Nat) : Nat :=
  now - s.lastActivity

/-- Embeds `KeepAliveService.shouldSendPing`. -/
def shouldSendPing (s : KeepAliveService) (now : Nat) : Bool :=
  getTimeSinceActivity s now < s.activityTimeoutMs

/-- Observable outcome of one timer tick. -/
inductive TickOutcome where
  | skippedInactive
  | noCallback
  | pingSent
  | pingFailedCaught
deriving DecidableEq, Repr

/-- Embeds one timer tick `checkAndSendPing` (with `sendPing` inlined): skip
when inactivity reached the timeout; otherwise invoke the callback, catching
and logging a failure (`callbackFails` abstracts the callback rejecting).
The service state is never modified by a tick. -/
def checkAndSendPing (s : KeepAliveService) (now : Nat) (callbackFails : Bool) :
    KeepAliveService × TickOutcome :=
  if !(shouldSendPing s now) then (s, .skippedInactive)
  else if !s.hasPingCallback then (s, .noCallback)
  else if callbackFails then (s, .pingFailedCaught)
  else (s, .pingSent)

/-- True when the tick reached the point of invoking the ping callback. -/
def pingAttempted : TickOutcome → Bool
  | .pingSent => true
  | .pingFailedCaught => true
  | _ => false

/-- Embeds `KeepAliveService.isActive`. -/
def isActive (s : KeepAliveService) : Bool := s.isRunning

/-- C5: on a tick with a callback set, the ping callback is invoked iff the
time since last activity is strictly below the activity timeout; with the
default 120 s timeout, 119 s of inactivity pings and 121 s skips. -/
theorem keepAliveTick_gatedByActivity (s : KeepAliveService) (now : Nat) (fails : Bool)
    (hcb : s.hasPingCallback = true) (htimeout : s.activityTimeoutMs = 120000) :
    (pingAttempted (checkAndSendPing s now fails).2 = true ↔ now - s.lastActivity < 120000) ∧
    (now - s.lastActivity = 119000 →
      pingAttempted (checkAndSendPing s now fails).2 = true) ∧
    (now - s.lastActivity = 121000 →
      (checkAndSendPing s now fails).2 = .skippedInactive) := by
  have hiff : pingAttempted (checkAndSendPing s now fails).2 = true ↔
      now - s.lastActivity < 120000 := by
    unfold checkAndSendPing shouldSendPing getTimeSinceActivity
    by_cases hact : now - s.lastActivity < s.activityTimeoutMs
    · rw [htimeout] at hact
      simp only [htimeout]
      cases fails <;> simp [hact, hcb, pingAttempted]
    · rw [htimeout] at hact
      simp only [htimeout]
      simp [hact, pingAttempted]
  refine ⟨hiff, fun h119 => hiff.mpr (by omega), fun h121 => ?_⟩
  unfold checkAndSendPing shouldSendPing getTimeSinceActivity
  have : ¬(now - s.lastActivity < s.activityTimeoutMs) := by omega
  simp [this]

/-- C5 witness: with timeout 120 000 ms and last activity at 0, a tick at
119 000 ms attempts a ping and a tick at 121 000 ms is skipped. -/
theorem keepAliveTick_gatedByActivity_inst :
    pingAttempted (checkAndSendPing ⟨true, true, true, 0, 120000⟩ 119000 false).2 = true ∧
    (checkAndSendPing ⟨true, true, true, 0, 120000⟩ 121000 false).2 = .skippedInactive :=
  ⟨(keepAliveTick_gatedByActivity ⟨true, true, true, 0, 120000⟩ 119000 false rfl rfl).2.1
      (by decide),
   (keepAliveTick_gatedByActivity ⟨true, true, true, 0, 120000⟩ 121000 false rfl rfl).2.2
      (by decide)⟩

/-- C8: a failing ping callback is caught (the tick completes with the
failure merely logged), the service state is unchanged — still running, timer
still armed — and a subsequent tick under recent activity attempts a ping
again. -/
theorem keepAlivePingFailure_contained (s : KeepAliveService) (now now2 : Nat)
    (fails2 : Bool) (hrun : s.isRunning = true) :
    (checkAndSendPing s now true).1 = s ∧
    isActive (checkAndSendPing s now true).1 = true ∧
    (checkAndSendPing s now true).1.pingTimerArmed = s.pingTimerArmed ∧
    (shouldSendPing s now = true → s.hasPingCallback = true →
      (checkAndSendPing s now true).2 = .pingFailedCaught) ∧
    (shouldSendPing (checkAndSendPing s now true).1 now2 = true →
      (checkAndSendPing s now true).1.hasPingCallback = true →
      pingAttempted (checkAndSendPing (checkAndSendPing s now true).1 now2 fails2).2
        = true) := by
  have hstate : (checkAndSendPing s now true).1 = s := by
    unfold checkAndSendPing
    split
    · rfl
    · split
      · rfl
      · split <;> rfl
  refine ⟨hstate, by rw [hstate, isActive, hrun], by rw [hstate], fun hact hcb => ?_,
    fun hact2 hcb2 => ?_⟩
  · unfold checkAndSendPing
    simp [hact, hcb]
  · rw [hstate] at hact2 hcb2 ⊢
    unfold checkAndSendPing
    cases fails2 <;> simp [hact2, hcb2, pingAttempted]

/-- C8 witness: a failing ping at 1000 ms leaves the running service intact
and a second tick at 2000 ms still attempts a ping. -/
theorem keepAlivePingFailure_contained_inst :
    (checkAndSendPing ⟨true, true, true, 0, 120000⟩ 1000 true).1
      = ⟨true, true, true, 0, 120000⟩ ∧
    isActive (checkAndSendPing ⟨true, true, true, 0, 120000⟩ 1000 true).1 = true ∧
    (checkAndSendPing ⟨true, true, true, 0, 120000⟩ 1000 true).1.pingTimerArmed = true ∧
    (checkAndSendPing ⟨true, true, true, 0, 120000⟩ 1000 true).2
      = TickOutcome.pingFailedCaught ∧
    pingAttempted (checkAndSendPing
      (checkAndSendPing ⟨true, true, true, 0, 120000⟩ 1000 true).1 2000 true).2 = true := by
  have h := keepAlivePingFailure_contained ⟨true, true, true, 0, 120000⟩ 1000 2000 true rfl
  exact ⟨h.1, h.2.1, h.2.2.1, h.2.2.2.1 (by decide) (by decide),
    h.2.2.2.2 (by rw [h.1]; decide) (by rw [h.1])⟩

/-! ## Device preset capability and operations (claims C7) -/

/-- Which of the four optional preset characteristics hold a discovered
(non-null) reference. -/
structure PresetChars where
  save : Bool
  load : Bool
  list : Bool
  delete : Bool
deriving DecidableEq, Repr

/-- Embeds the sequential discovery block in `connect()`: the four
`getCharacteristic` calls run in one try; the first unavailable
characteristic aborts the block (caught, logged), leaving it and all later
ones null. -/
def discoverPresetCharacteristics (availSave availLoad availList availDelete : Bool) :
    PresetChars :=
  if !availSave then ⟨false, false, false, false⟩
  else if !availLoad then ⟨true, false, false, false⟩
  else if !availList then ⟨true, true, false, false⟩
  else if !availDelete then ⟨true, true, true, false⟩
  else ⟨true, true, true, true⟩

/-- Embeds `hasDevicePresetSupport()`: only the save characteristic is
checked. -/
def hasDevicePresetSupport (c : PresetChars) : Bool := c.save

/-- Transport-level operation issued by a preset method. -/
inductive TransportOp where
  | writeSave (frame : List Nat)
  | writeLoad (frame : List Nat)
  | readList
  | writeDelete (frame : List Nat)
  | readData
deriving DecidableEq, Repr

/-- Embeds `saveDevicePreset(slot, name)`: capability check first, then
encode, then the characteristic write; the returned list records the
transport operations actually performed. -/
def saveDevicePreset (c : PresetChars) (slot : Int) (name : List Nat) :
    Except String Unit × List TransportOp :=
  if !c.save then (.error "Device presets not supported", [])
  else
    match encodePresetSave slot name with
    | .error e => (.error e, [])
    | .ok frame => (.ok (), [.writeSave frame])

/-- Embeds `loadDevicePreset(slot)`: capability check, encode, write, then
the `loadFromDevice()` read-back of the data characteristic. -/
def loadDevicePreset (c : PresetChars) (slot : Int) :
    Except String Unit × List TransportOp :=
  if !c.load then (.error "Device presets not supported", [])
  else
    match encodePresetLoad slot with
    | .error e => (.error e, [])
    | .ok frame => (.ok (), [.writeLoad frame, .readData])

/-- Embeds `listDevicePresets()`: capability check, then a read of the list
characteristic (whose value is `response`) decoded by `decodePresetList`. -/
def listDevicePresets (c : PresetChars) (response : List Nat) :
    Except String (List DevicePresetMetadata) × List TransportOp :=
  if !c.list then (.error "Device presets not supported", [])
  else (.ok (decodePresetList response), [.readList])

/-- Embeds `deleteDevicePreset(slot)`. -/
def deleteDevicePreset (c : PresetChars) (slot : Int) :
    Except String Unit × List TransportOp :=
  if !c.delete then (.error "Device presets not supported", [])
  else
    match encodePresetDelete slot with
    | .error e => (.error e, [])
    | .ok frame => (.ok (), [.writeDelete frame])

/-- C7: when the preset save characteristic was not discovered, discovery
leaves all four preset characteristics null, `hasDevicePresetSupport` is
false, and every preset operation — in particular `saveDevicePreset(0,
"Test")` — fails fast with the unsupported error and performs no transport
operation. -/
theorem devicePresetOps_failFast (availLoad availList availDelete : Bool)
    (slot : Int) (name response : List Nat) :
    hasDevicePresetSupport
        (discoverPresetCharacteristics false availLoad availList availDelete) = false ∧
    saveDevicePreset (discoverPresetCharacteristics false availLoad availList availDelete)
        slot name = (.error "Device presets not supported", []) ∧
    loadDevicePreset (discoverPresetCharacteristics false availLoad availList availDelete)
        slot = (.error "Device presets not supported", []) ∧
    listDevicePresets (discoverPresetCharacteristics false availLoad availList availDelete)
        response = (.error "Device presets not supported", []) ∧
    deleteDevicePreset (discoverPresetCharacteristics false availLoad availList availDelete)
        slot = (.error "Device presets not supported", []) ∧
    saveDevicePreset (discoverPresetCharacteristics false availLoad availList availDelete)
        0 [84, 101, 115, 116] = (.error "Device presets not supported", []) := by
  have hc : discoverPresetCharacteristics false availLoad availList availDelete
      = ⟨false, false, false, false⟩ := rfl
  rw [hc]
  refine ⟨rfl, ?_, ?_, ?_, ?_, ?_⟩ <;>
    simp [saveDevicePreset, loadDevicePreset, listDevicePresets, deleteDevicePreset,
      hasDevicePresetSupport]

/-! ## Transport session teardown (`BLEClient`, claim C9) -/

/-- References held by the `BLEClient` singleton (handles as opaque numbers),
plus the GATT link state of the held device. -/
structure BLEClientState where
  device : Option Nat
  gattConnected : Bool
  server : Option Nat
  characteristic : Option Nat
deriving DecidableEq, Repr

/-- Status value passed to the status-change callback. -/
structure BLEConnectionStatus where
  connected : Bool
  device : Option Nat
  error : Option String
deriving DecidableEq, Repr

/-- Embeds `cleanup()`: clears the characteristic and server references; the
source explicitly keeps `device` ("to preserve device info"). -/
def cleanup (st : BLEClientState) : BLEClientState :=
  { st with characteristic := none, server := none }

/-- Embeds `disconnect()`: calls `gatt.disconnect()` when a connected device
is held, then `cleanup()`, then reports `connected=false` with the retained
device through the status callback. -/
def disconnect (st : BLEClientState) : BLEClientState × BLEConnectionStatus :=
  let st1 :=
    if st.device.isSome && st.gattConnected then { st with gattConnected := false } else st
  let st2 := cleanup st1
  (st2, { connected := false, device := st2.device, error := none })

/-- C9 (amended): after `disconnect()` the GATT link of a held device is torn
down and the characteristic and server references are cleared, but the
device handle is deliberately retained (not cleared); a status with
`connected=false` (and no error) is reported.  This holds from any prior
state, whether or not a session was established. -/
theorem disconnect_clearsSessionKeepsDevice (st : BLEClientState) :
    (disconnect st).1.characteristic = none ∧
    (disconnect st).1.server = none ∧
    (disconnect st).1.device = st.device ∧
    (disconnect st).1.gattConnected = (st.gattConnected && st.device.isNone) ∧
    (disconnect st).2.connected = false ∧
    (disconnect st).2.device = st.device ∧
    (disconnect st).2.error = none := by
  obtain ⟨d, g, sv, ch⟩ := st
  cases d <;> cases g <;> simp [disconnect, cleanup]

/-- C9 counterexample: from a fully connected state, `disconnect()` keeps the
device reference — it is not cleared, contradicting the claim that the
device handle is cleared. -/
theorem disconnect_keepsDeviceHandle :
    (disconnect ⟨some 1, true, some 2, some 3⟩).1.device = some 1 ∧
    some 1 ≠ (none : Option Nat) := by
  constructor
  · rfl
  · decide

/-! ## Settings codec (claim C3)

Modelled from the spec: the repository ships `encodeSettings` /
`decodeSettings` only as unimplemented placeholders in `kb1Protocol.ts`
(which is absent from the sources); the definitions below follow the spec:
`DeviceSettings` aggregates two lever, two lever-push, one touch and one
scale sub-model, each a flat record of small integers; `encodeSettings`
validates first (CC fields −1 or 0..127, threshold 0..100, other fields in
their byte/16-bit ranges) and lays every field out at a fixed byte offset,
multi-byte integers little-endian, in a frame of fixed total size;
`decodeSettings` fails with `DecodeError` exactly when the frame is shorter
than that size. -/

/-- Modelled from the spec: lever sub-model (fields as documented in the
repository docs). -/
structure LeverModel where
  ccNumber : Int
  minCCValue : Nat
  maxCCValue : Nat
  stepSize : Nat
  functionMode : Nat
  valueMode : Nat
  onsetTime : Nat
  offsetTime : Nat
  onsetType : Nat
  offsetType : Nat
deriving DecidableEq, Repr

/-- Modelled from the spec: lever-push sub-model. -/
structure LeverPushModel where
  ccNumber : Int
  minCCValue : Nat
  maxCCValue : Nat
  functionMode : Nat
  interpolation : Nat
  onsetTime : Nat
  offsetTime : Nat
deriving DecidableEq, Repr

/-- Modelled from the spec: touch sub-model (threshold documented 0..100). -/
structure TouchModel where
  ccNumber : Int
  minCCValue : Nat
  maxCCValue : Nat
  functionMode : Nat
  threshold : Nat
deriving DecidableEq, Repr

/-- Modelled from the spec: scale sub-model. -/
structure ScaleModel where
  scale : Nat
  rootNote : Nat
deriving DecidableEq, Repr

/-- Modelled from the spec: the aggregate settings record. -/
structure DeviceSettings where
  lever1 : LeverModel
  leverPush1 : LeverPushModel
  lever2 : LeverModel
  leverPush2 : LeverPushModel
  touch : TouchModel
  scale : ScaleModel
deriving DecidableEq, Repr

/-- Signed byte write (two's complement), as `DataView.setInt8` stores it. -/
def encI8 (i : Int) : Nat := (i % 256).toNat

/-- Signed byte read, as `DataView.getInt8` reads it. -/
def decI8 (b : Nat) : Int := if b < 128 then (b : Int) else (b : Int) - 256

theorem decI8_encI8 (i : Int) (h1 : -128 ≤ i) (h2 : i < 128) : decI8 (encI8 i) = i := by
  unfold decI8 encI8
  by_cases hpos : 0 ≤ i
  · have he : i % 256 = i := by omega
    rw [he, if_pos (show i.toNat < 128 by omega)]
    omega
  · have he : i % 256 = i + 256 := by omega
    rw [he, if_neg (show ¬((i + 256).toNat < 128) by omega)]
    omega

/-- Range invariant of a lever sub-model (CC −1 or 0..127; CC values 0..127;
enums one byte; timing 16-bit). -/
def validLever (m : LeverModel) : Prop :=
  (-1 ≤ m.ccNumber ∧ m.ccNumber ≤ 127) ∧ m.minCCValue ≤ 127 ∧ m.maxCCValue ≤ 127 ∧
    m.stepSize ≤ 127 ∧ m.functionMode ≤ 255 ∧ m.valueMode ≤ 255 ∧
    m.onsetTime ≤ 65535 ∧ m.offsetTime ≤ 65535 ∧ m.onsetType ≤ 255 ∧ m.offsetType ≤ 255

/-- Range invariant of a lever-push sub-model. -/
def validLeverPush (m : LeverPushModel) : Prop :=
  (-1 ≤ m.ccNumber ∧ m.ccNumber ≤ 127) ∧ m.minCCValue ≤ 127 ∧ m.maxCCValue ≤ 127 ∧
    m.functionMode ≤ 255 ∧ m.interpolation ≤ 255 ∧
    m.onsetTime ≤ 65535 ∧ m.offsetTime ≤ 65535

/-- Range invariant of the touch sub-model (threshold 0..100). -/
def validTouch (m : TouchModel) : Prop :=
  (-1 ≤ m.ccNumber ∧ m.ccNumber ≤ 127) ∧ m.minCCValue ≤ 127 ∧ m.maxCCValue ≤ 127 ∧
    m.functionMode ≤ 255 ∧ m.threshold ≤ 100

/-- Range invariant of the scale sub-model. -/
def validScale (m : ScaleModel) : Prop := m.scale ≤ 255 ∧ m.rootNote ≤ 127

/-- Validity of the aggregate (the precondition of `encodeSettings`). -/
def validSettings (s : DeviceSettings) : Prop :=
  validLever s.lever1 ∧ validLeverPush s.leverPush1 ∧ validLever s.lever2 ∧
    validLeverPush s.leverPush2 ∧ validTouch s.touch ∧ validScale s.scale

instance (m : LeverModel) : Decidable (validLever m) := by
  unfold validLever
  infer_instance

instance (m : LeverPushModel) : Decidable (validLeverPush m) := by
  unfold validLeverPush
  infer_instance

instance (m : TouchModel) : Decidable (validTouch m) := by
  unfold validTouch
  infer_instance

instance (m : ScaleModel) : Decidable (validScale m) := by
  unfold validScale
  infer_instance

instance (s : DeviceSettings) : Decidable (validSettings s) := by
  unfold validSettings
  infer_instance

/-- Lever field layout at its fixed offsets (12 bytes: 6 byte fields, two
little-endian 16-bit timing values, 2 byte fields). -/
def encodeLever (m : LeverModel) : List Nat :=
  [encI8 m.ccNumber, m.minCCValue, m.maxCCValue, m.stepSize, m.functionMode, m.valueMode]
    ++ u16Bytes m.onsetTime ++ u16Bytes m.offsetTime ++ [m.onsetType, m.offsetType]

/-- Lever-push field layout (9 bytes). -/
def encodeLeverPush (m : LeverPushModel) : List Nat :=
  [encI8 m.ccNumber, m.minCCValue, m.maxCCValue, m.functionMode, m.interpolation]
    ++ u16Bytes m.onsetTime ++ u16Bytes m.offsetTime

/-- Touch field layout (5 bytes). -/
def encodeTouch (m : TouchModel) : List Nat :=
  [encI8 m.ccNumber, m.minCCValue, m.maxCCValue, m.functionMode, m.threshold]

/-- Scale field layout (2 bytes). -/
def encodeScale (m : ScaleModel) : List Nat := [m.scale, m.rootNote]

/-- Fixed total size of the settings frame: 12 + 9 + 12 + 9 + 5 + 2. -/
def SETTINGS_FRAME_SIZE : Nat := 49

/-- Modelled from the spec: `encodeSettings(settings)` — validation is a
precondition (`ValidationError` before any encoding), then the sub-models
are laid out back to back at fixed offsets. -/
def encodeSettings (s : DeviceSettings) : Except String (List Nat) :=
  if validSettings s then
    Except.ok (encodeLever s.lever1 ++ (encodeLeverPush s.leverPush1 ++
      (encodeLever s.lever2 ++ (encodeLeverPush s.leverPush2 ++
        (encodeTouch s.touch ++ encodeScale s.scale)))))
  else Except.error "ValidationError"

/-- Reads a lever sub-model at byte offset `off`. -/
def decodeLever (frame : List Nat) (off : Nat) : LeverModel :=
  { ccNumber := decI8 (getU8 frame off)
    minCCValue := getU8 frame (off + 1)
    maxCCValue := getU8 frame (off + 2)
    stepSize := getU8 frame (off + 3)
    functionMode := getU8 frame (off + 4)
    valueMode := getU8 frame (off + 5)
    onsetTime := getU16LE frame (off + 6)
    offsetTime := getU16LE frame (off + 8)
    onsetType := getU8 frame (off + 10)
    offsetType := getU8 frame (off + 11) }

/-- Reads a lever-push sub-model at byte offset `off`. -/
def decodeLeverPush (frame : List Nat) (off : Nat) : LeverPushModel :=
  { ccNumber := decI8 (getU8 frame off)
    minCCValue := getU8 frame (off + 1)
    maxCCValue := getU8 frame (off + 2)
    functionMode := getU8 frame (off + 3)
    interpolation := getU8 frame (off + 4)
    onsetTime := getU16LE frame (off + 5)
    offsetTime := getU16LE frame (off + 7) }

/-- Reads the touch sub-model at byte offset `off`. -/
def decodeTouch (frame : List Nat) (off : Nat) : TouchModel :=
  { ccNumber := decI8 (getU8 frame off)
    minCCValue := getU8 frame (off + 1)
    maxCCValue := getU8 frame (off + 2)
    functionMode := getU8 frame (off + 3)
    threshold := getU8 frame (off + 4) }

/-- Reads the scale sub-model at byte offset `off`. -/
def decodeScale (frame : List Nat) (off : Nat) : ScaleModel :=
  { scale := getU8 frame off
    rootNote := getU8 frame (off + 1) }

/-- Modelled from the spec: `decodeSettings(frame)` — fails with
`DecodeError` iff the frame is shorter than the fixed size, else reads each
sub-model at its fixed offset. -/
def decodeSettings (frame : List Nat) : Except String DeviceSettings :=
  if frame.length < SETTINGS_FRAME_SIZE then Except.error "DecodeError"
  else Except.ok
    { lever1 := decodeLever frame 0
      leverPush1 := decodeLeverPush frame 12
      lever2 := decodeLever frame 21
      leverPush2 := decodeLeverPush frame 33
      touch := decodeTouch frame 42
      scale := decodeScale frame 47 }

theorem encodeLever_length (m : LeverModel) : (encodeLever m).length = 12 := by
  simp [encodeLever, u16Bytes]

theorem encodeLeverPush_length (m : LeverPushModel) : (encodeLeverPush m).length = 9 := by
  simp [encodeLeverPush, u16Bytes]

theorem encodeTouch_length (m : TouchModel) : (encodeTouch m).length = 5 := by
  simp [encodeTouch]

theorem encodeScale_length (m : ScaleModel) : (encodeScale m).length = 2 := by
  simp [encodeScale]

theorem getU8_shift (pre l : List Nat) (k : Nat) :
    getU8 (pre ++ l) (pre.length + k) = getU8 l k := by
  rw [getU8_append_right _ _ _ (by omega)]
  congr 1
  omega

theorem getU16_shift (pre l : List Nat) (k : Nat) :
    getU16LE (pre ++ l) (pre.length + k) = getU16LE l k := by
  unfold getU16LE
  rw [show pre.length + k + 1 = pre.length + (k + 1) from by omega, getU8_shift, getU8_shift]

theorem decodeLever_shift (pre l : List Nat) (off : Nat) :
    decodeLever (pre ++ l) (pre.length + off) = decodeLever l off := by
  unfold decodeLever
  simp only [Nat.add_assoc, getU8_shift, getU16_shift]

theorem decodeLeverPush_shift (pre l : List Nat) (off : Nat) :
    decodeLeverPush (pre ++ l) (pre.length + off) = decodeLeverPush l off := by
  unfold decodeLeverPush
  simp only [Nat.add_assoc, getU8_shift, getU16_shift]

theorem decodeTouch_shift (pre l : List Nat) (off : Nat) :
    decodeTouch (pre ++ l) (pre.length + off) = decodeTouch l off := by
  unfold decodeTouch
  simp only [Nat.add_assoc, getU8_shift, getU16_shift]

theorem decodeScale_shift (pre l : List Nat) (off : Nat) :
    decodeScale (pre ++ l) (pre.length + off) = decodeScale l off := by
  unfold decodeScale
  simp only [Nat.add_assoc, getU8_shift]

theorem decodeLever_encodeLever (m : LeverModel) (rest : List Nat) (hv : validLever m) :
    decodeLever (encodeLever m ++ rest) 0 = m := by
  obtain ⟨cc, mn, mx, sz, fm, vm, ot, ft, oty, fty⟩ := m
  obtain ⟨⟨hcc1, hcc2⟩, hmn, hmx, hsz, hfm, hvm, hot, hft, hoty, hfty⟩ := hv
  have hcc1n : -1 ≤ cc := hcc1
  have hcc2n : cc ≤ 127 := hcc2
  have hotn : ot ≤ 65535 := hot
  have hftn : ft ≤ 65535 := hft
  have hform : encodeLever ⟨cc, mn, mx, sz, fm, vm, ot, ft, oty, fty⟩ ++ rest
      = encI8 cc :: mn :: mx :: sz :: fm :: vm :: ot % 256 :: ot / 256 % 256 ::
        ft % 256 :: ft / 256 % 256 :: oty :: fty :: rest := by
    simp [encodeLever, u16Bytes]
  rw [hform]
  unfold decodeLever
  simp only [LeverModel.mk.injEq]
  refine ⟨?_, rfl, rfl, rfl, rfl, rfl, ?_, ?_, rfl, rfl⟩
  · show decI8 (encI8 cc) = cc
    exact decI8_encI8 cc (by omega) (by omega)
  · show ot % 256 + 256 * (ot / 256 % 256) = ot
    omega
  · show ft % 256 + 256 * (ft / 256 % 256) = ft
    omega

theorem decodeLeverPush_encodeLeverPush (m : LeverPushModel) (rest : List Nat)
    (hv : validLeverPush m) : decodeLeverPush (encodeLeverPush m ++ rest) 0 = m := by
  obtain ⟨cc, mn, mx, fm, ip, ot, ft⟩ := m
  obtain ⟨⟨hcc1, hcc2⟩, hmn, hmx, hfm, hip, hot, hft⟩ := hv
  have hcc1n : -1 ≤ cc := hcc1
  have hcc2n : cc ≤ 127 := hcc2
  have hotn : ot ≤ 65535 := hot
  have hftn : ft ≤ 65535 := hft
  have hform : encodeLeverPush ⟨cc, mn, mx, fm, ip, ot, ft⟩ ++ rest
      = encI8 cc :: mn :: mx :: fm :: ip :: ot % 256 :: ot / 256 % 256 ::
        ft % 256 :: ft / 256 % 256 :: rest := by
    simp [encodeLeverPush, u16Bytes]
  rw [hform]
  unfold decodeLeverPush
  simp only [LeverPushModel.mk.injEq]
  refine ⟨?_, rfl, rfl, rfl, rfl, ?_, ?_⟩
  · show decI8 (encI8 cc) = cc
    exact decI8_encI8 cc (by omega) (by omega)
  · show ot % 256 + 256 * (ot / 256 % 256) = ot
    omega
  · show ft % 256 + 256 * (ft / 256 % 256) = ft
    omega

theorem decodeTouch_encodeTouch (m : TouchModel) (rest : List Nat) (hv : validTouch m) :
    decodeTouch (encodeTouch m ++ rest) 0 = m := by
  obtain ⟨cc, mn, mx, fm, th⟩ := m
  obtain ⟨⟨hcc1, hcc2⟩, hmn, hmx, hfm, hth⟩ := hv
  have hcc1n : -1 ≤ cc := hcc1
  have hcc2n : cc ≤ 127 := hcc2
  have hform : encodeTouch ⟨cc, mn, mx, fm, th⟩ ++ rest
      = encI8 cc :: mn :: mx :: fm :: th :: rest := by
    simp [encodeTouch]
  rw [hform]
  unfold decodeTouch
  simp only [TouchModel.mk.injEq]
  refine ⟨?_, rfl, rfl, rfl, rfl⟩
  show decI8 (encI8 cc) = cc
  exact decI8_encI8 cc (by omega) (by omega)

theorem decodeScale_encodeScale (m : ScaleModel) (rest : List Nat) :
    decodeScale (encodeScale m ++ rest) 0 = m := by
  obtain ⟨sc, rn⟩ := m
  have hform : encodeScale ⟨sc, rn⟩ ++ rest = sc :: rn :: rest := by simp [encodeScale]
  rw [hform]
  rfl

/-- C3: for every valid settings value the codec round-trips
(`decodeSettings (encodeSettings s) = s`), every frame of at least the fixed
size decodes successfully, and every shorter frame fails with `DecodeError`
(so decoding fails only on short frames). -/
theorem settings_roundtrip (s : DeviceSettings) (frame : List Nat)
    (hs : validSettings s) (hf : SETTINGS_FRAME_SIZE ≤ frame.length) :
    (encodeSettings s).bind decodeSettings = Except.ok s ∧
    (decodeSettings frame).isOk = true ∧
    (∀ short : List Nat, short.length < SETTINGS_FRAME_SIZE →
      decodeSettings short = Except.error "DecodeError") := by
  obtain ⟨hv1, hv2, hv3, hv4, hv5, hv6⟩ := hs
  refine ⟨?_, ?_, fun short hshort => ?_⟩
  · have hok : encodeSettings s = Except.ok (encodeLever s.lever1 ++
        (encodeLeverPush s.leverPush1 ++ (encodeLever s.lever2 ++
          (encodeLeverPush s.leverPush2 ++ (encodeTouch s.touch ++
            encodeScale s.scale))))) := by
      unfold encodeSettings
      rw [if_pos ⟨hv1, hv2, hv3, hv4, hv5, hv6⟩]
    rw [hok]
    show decodeSettings (encodeLever s.lever1 ++ (encodeLeverPush s.leverPush1 ++
      (encodeLever s.lever2 ++ (encodeLeverPush s.leverPush2 ++
        (encodeTouch s.touch ++ encodeScale s.scale))))) = Except.ok s
    have hlen : (encodeLever s.lever1 ++ (encodeLeverPush s.leverPush1 ++
        (encodeLever s.lever2 ++ (encodeLeverPush s.leverPush2 ++
          (encodeTouch s.touch ++ encodeScale s.scale))))).length = 49 := by
      simp [List.length_append, encodeLever_length, encodeLeverPush_length,
        encodeTouch_length, encodeScale_length]
    have e1 : decodeLever (encodeLever s.lever1 ++ (encodeLeverPush s.leverPush1 ++
        (encodeLever s.lever2 ++ (encodeLeverPush s.leverPush2 ++
          (encodeTouch s.touch ++ encodeScale s.scale))))) 0 = s.lever1 :=
      decodeLever_encodeLever _ _ hv1
    have e2 : decodeLeverPush (encodeLever s.lever1 ++ (encodeLeverPush s.leverPush1 ++
        (encodeLever s.lever2 ++ (encodeLeverPush s.leverPush2 ++
          (encodeTouch s.touch ++ encodeScale s.scale))))) 12 = s.leverPush1 := by
      rw [show (12 : Nat) = (encodeLever s.lever1).length + 0 from by
          rw [encodeLever_length],
        decodeLeverPush_shift]
      exact decodeLeverPush_encodeLeverPush _ _ hv2
    have e3 : decodeLever (encodeLever s.lever1 ++ (encodeLeverPush s.leverPush1 ++
        (encodeLever s.lever2 ++ (encodeLeverPush s.leverPush2 ++
          (encodeTouch s.touch ++ encodeScale s.scale))))) 21 = s.lever2 := by
      rw [show (21 : Nat) = (encodeLever s.lever1).length + 9 from by
          rw [encodeLever_length],
        decodeLever_shift,
        show (9 : Nat) = (encodeLeverPush s.leverPush1).length + 0 from by
          rw [encodeLeverPush_length],
        decodeLever_shift]
      exact decodeLever_encodeLever _ _ hv3
    have e4 : decodeLeverPush (encodeLever s.lever1 ++ (encodeLeverPush s.leverPush1 ++
        (encodeLever s.lever2 ++ (encodeLeverPush s.leverPush2 ++
          (encodeTouch s.touch ++ encodeScale s.scale))))) 33 = s.leverPush2 := by
      rw [show (33 : Nat) = (encodeLever s.lever1).length + 21 from by
          rw [encodeLever_length],
        decodeLeverPush_shift,
        show (21 : Nat) = (encodeLeverPush s.leverPush1).length + 12 from by
          rw [encodeLeverPush_length],
        decodeLeverPush_shift,
        show (12 : Nat) = (encodeLever s.lever2).length + 0 from by
          rw [encodeLever_length],
        decodeLeverPush_shift]
      exact decodeLeverPush_encodeLeverPush _ _ hv4
    have e5 : decodeTouch (encodeLever s.lever1 ++ (encodeLeverPush s.leverPush1 ++
        (encodeLever s.lever2 ++ (encodeLeverPush s.leverPush2 ++
          (encodeTouch s.touch ++ encodeScale s.scale))))) 42 = s.touch := by
      rw [show (42 : Nat) = (encodeLever s.lever1).length + 30 from by
          rw [encodeLever_length],
        decodeTouch_shift,
        show (30 : Nat) = (encodeLeverPush s.leverPush1).length + 21 from by
          rw [encodeLeverPush_length],
        decodeTouch_shift,
        show (21 : Nat) = (encodeLever s.lever2).length + 9 from by
          rw [encodeLever_length],
        decodeTouch_shift,
        show (9 : Nat) = (encodeLeverPush s.leverPush2).length + 0 from by
          rw [encodeLeverPush_length],
        decodeTouch_shift]
      exact decodeTouch_encodeTouch _ _ hv5
    have e6 : decodeScale (encodeLever s.lever1 ++ (encodeLeverPush s.leverPush1 ++
        (encodeLever s.lever2 ++ (encodeLeverPush s.leverPush2 ++
          (encodeTouch s.touch ++ encodeScale s.scale))))) 47 = s.scale := by
      rw [show (47 : Nat) = (encodeLever s.lever1).length + 35 from by
          rw [encodeLever_length],
        decodeScale_shift,
        show (35 : Nat) = (encodeLeverPush s.leverPush1).length + 26 from by
          rw [encodeLeverPush_length],
        decodeScale_shift,
        show (26 : Nat) = (encodeLever s.lever2).length + 14 from by
          rw [encodeLever_length],
        decodeScale_shift,
        show (14 : Nat) = (encodeLeverPush s.leverPush2).length + 5 from by
          rw [encodeLeverPush_length],
        decodeScale_shift,
        show (5 : Nat) = (encodeTouch s.touch).length + 0 from by
          rw [encodeTouch_length],
        decodeScale_shift,
        show encodeScale s.scale = encodeScale s.scale ++ [] from
          (List.append_nil _).symm]
      exact decodeScale_encodeScale _ _
    unfold decodeSettings SETTINGS_FRAME_SIZE
    rw [if_neg (by rw [hlen]; omega), e1, e2, e3, e4, e5, e6]
  · have hfn : 49 ≤ frame.length := hf
    unfold decodeSettings SETTINGS_FRAME_SIZE
    rw [if_neg (by omega)]
    rfl
  · have hsn : short.length < 49 := hshort
    unfold decodeSettings SETTINGS_FRAME_SIZE
    rw [if_pos (by omega)]

/-- Representative valid settings value for the witness. -/
def sampleSettings : DeviceSettings :=
  { lever1 := ⟨1, 0, 127, 1, 0, 0, 100, 200, 0, 1⟩
    leverPush1 := ⟨2, 0, 127, 1, 0, 300, 400⟩
    lever2 := ⟨4, 10, 120, 2, 1, 1, 65535, 0, 1, 0⟩
    leverPush2 := ⟨5, 0, 127, 0, 1, 0, 65535⟩
    touch := ⟨-1, 0, 100, 0, 50⟩
    scale := ⟨3, 60⟩ }

/-- C3 witness: the sample settings round-trip; a 49-byte frame decodes; the
empty frame fails with `DecodeError`. -/
theorem settings_roundtrip_inst :
    (encodeSettings sampleSettings).bind decodeSettings = Except.ok sampleSettings ∧
    (decodeSettings (List.replicate 49 0)).isOk = true ∧
    decodeSettings [] = Except.error "DecodeError" :=
  have h := settings_roundtrip sampleSettings (List.replicate 49 0) (by decide) (by decide)
  ⟨h.1, h.2.1, h.2.2 [] (by decide)⟩

end KB1
